import Mathlib

/-!
Shallow embedding of the upgrade-builds package: the lazy-module registrar
(`downgradeModule`), the component-downgrade directive (`downgradeComponent`),
the parent-injector promise, the injector handoff cell, the validation helper
and the `ngModel` glue.  Translated from:
  src/esm2015/src/common/angular1.js        (downgradeComponent, ParentInjectorPromise)
  src/esm2015/static/src/static/downgrade_module.js  (downgradeModule)
  src/esm5/static/src/angular1_providers.js (handoff cell, util.js: validateInjectionKey ...)
  src/unnamed/part_000                      (hookupNgModel)
-/

/-- Modelled from the spec: the DI lookup-key constants live in `constants.js`,
which is not among the provided sources; the spec only requires them to be
fixed, distinct, framework-namespaced strings used as module-qualified lookup
keys.  Key under which the Upgrade Application Mode is recorded. -/
def UPGRADE_APP_TYPE_KEY : String := "$$UpgradeAppType"

/-- Modelled from the spec: key under which the Downgraded-Module Count is
recorded in the DI container. -/
def DOWNGRADED_MODULE_COUNT_KEY : String := "$$DowngradedModuleCount"

/-- Modelled from the spec: prefix of the module-qualified lazy-module-reference
lookup keys. -/
def LAZY_MODULE_REF : String := "$$LazyModuleRef"

/-- Modelled from the spec: prefix of the module-qualified injector lookup keys. -/
def INJECTOR_KEY : String := "$$AngularInjector"

/-- Modelled from the spec: prefix used to generate the unique wrapper-module
names (name = prefix + running counter). -/
def UPGRADE_MODULE_NAME : String := "$$UpgradeModule"

/-- Injector references.  `raw n` is an underlying injector object (identified
by a number); `adapter i` is the `NgAdapterInjector` wrapper that
`downgradeModule` puts around the injector of the bootstrapped module
(downgrade_module.js line 140). -/
inductive Inj
  | raw : Nat → Inj
  | adapter : Inj → Inj
deriving DecidableEq

/-- A value that is either a plain injector or a thenable (a promise-like
object that will eventually deliver an injector).  In the source this is the
implicit promise-or-value duck typing probed by `isThenable`; a thenable is
represented here by the injector it will eventually resolve to (bootstrap
rejections are outside the scope of the claims). -/
inductive Dyn
  | inj : Inj → Dyn
  | thenable : Inj → Dyn
deriving DecidableEq

/-- The lazy-module-reference record produced by the factory that
`downgradeModule` registers (downgrade_module.js lines 132-147):
`{needsNgZone: true, injector?, promise?}`. -/
structure LazyModuleRef where
  needsNgZone : Bool
  injector : Option Inj
  promise : Option Inj
deriving DecidableEq

/-- The AngularJS `$injector` service, consumed through its narrow `has`/`get`
interface.  JavaScript `get` is dynamically typed; here it is split by the type
of the stored value: numeric entries (the app-type tag and the module count)
and lazy-module-reference entries. -/
structure Ng1Injector where
  has : String → Bool
  getNum : String → Nat
  getLazyModuleRef : String → LazyModuleRef

/-- util.js `getDowngradedModuleCount`: the count entry if present, else 0. -/
def getDowngradedModuleCount (injSvc : Ng1Injector) : Nat :=
  if injSvc.has DOWNGRADED_MODULE_COUNT_KEY then injSvc.getNum DOWNGRADED_MODULE_COUNT_KEY
  else 0

/-- util.js `getUpgradeAppType`: the recorded mode if present, else 0 (None).
Modes are the numeric codes of the compiled source: 0 = None, 1 = Dynamic,
2 = Static, 3 = Lite. -/
def getUpgradeAppType (injSvc : Ng1Injector) : Nat :=
  if injSvc.has UPGRADE_APP_TYPE_KEY then injSvc.getNum UPGRADE_APP_TYPE_KEY
  else 0

/-- util.js `validateInjectionKey` (angular1_providers.js file, lines 86-116).
Thrown errors are modelled as `Except.error`; a JavaScript truthiness test on
the `downgradedModule` string is a nonemptiness test. -/
def validateInjectionKey (injSvc : Ng1Injector) (downgradedModule injectionKey attemptedAction : String) :
    Except String Unit :=
  let upgradeAppType := getUpgradeAppType injSvc
  let downgradedModuleCount := getDowngradedModuleCount injSvc
  if upgradeAppType = 1 ∨ upgradeAppType = 2 then
    if downgradedModule ≠ "" then
      Except.error ("Error while " ++ attemptedAction ++ ": downgradedModule unexpectedly specified.")
    else Except.ok ()
  else if upgradeAppType = 3 then
    if downgradedModule = "" ∧ 2 ≤ downgradedModuleCount then
      Except.error ("Error while " ++ attemptedAction ++ ": downgradedModule not specified.")
    else if ¬ injSvc.has injectionKey then
      Except.error ("Error while " ++ attemptedAction ++ ": Unable to find the specified downgraded module.")
    else Except.ok ()
  else
    Except.error ("Error while " ++ attemptedAction ++ ": Not a valid upgrade application.")

/-- util.js `controllerKey`. -/
def controllerKey (name : String) : String :=
  "$" ++ name ++ "Controller"

/-- The injector handoff cell (angular1_providers.js lines 12-15):
`setTempInjectorRef` stores the given injector, overwriting any previous
value.  The module-level variable `tempInjectorRef` is threaded explicitly;
`none` is the initial `null`. -/
def setTempInjectorRef (injector : Inj) (_cell : Option Inj) : Option Inj :=
  some injector

/-- angular1_providers.js `injectorFactory` (lines 16-23): throws if the cell
is empty, otherwise returns the stored injector and clears the cell.  The
result pairs the returned injector with the new cell contents. -/
def injectorFactory (cell : Option Inj) : Except String (Inj × Option Inj) :=
  match cell with
  | none => Except.error ("Trying to get the AngularJS injector before it being set.")
  | some injector => Except.ok (injector, none)

/-- Callbacks handed to the component by `hookupNgModel`: the bound
`$setViewValue` and `$setTouched` methods of the model controller. -/
inductive CompCb
  | setViewValue
  | setTouched
deriving DecidableEq

/-- The `$render` slot of the model controller: either a pre-existing render
function or the closure installed by `hookupNgModel`, which writes the current
`$viewValue` into the component. -/
inductive RenderFn
  | writeViewValue
  | other : Nat → RenderFn
deriving DecidableEq

/-- The AngularJS `NgModelController`, reduced to the one slot `hookupNgModel`
can mutate. -/
structure NgModelController where
  render : Option RenderFn
deriving DecidableEq

/-- A downgraded component instance as seen by `hookupNgModel`: which
`ControlValueAccessor` methods it exposes as functions, plus the callbacks it
has received through `registerOnChange` / `registerOnTouched`. -/
structure Component where
  hasWriteValue : Bool
  hasRegisterOnChange : Bool
  hasRegisterOnTouched : Bool
  onChangeCbs : List CompCb
  onTouchedCbs : List CompCb
deriving DecidableEq

/-- util.ts `supportsNgModel` (src/unnamed/part_000): the component has
function-valued `writeValue` and `registerOnChange`. -/
def supportsNgModel (c : Component) : Bool :=
  c.hasWriteValue && c.hasRegisterOnChange

/-- util.ts `hookupNgModel` (src/unnamed/part_000 lines 51-67).  `none` models
a missing (falsy) `ngModel`.  When wired: `$render` is assigned the
view-value-writing closure, the bound `$setViewValue` is registered as change
callback, and the bound `$setTouched` is registered as touched callback only
when the component also has a function-valued `registerOnTouched`. -/
def hookupNgModel (ngModel : Option NgModelController) (c : Component) :
    Option NgModelController × Component :=
  match ngModel with
  | some m =>
    if supportsNgModel c then
      (some { m with render := some RenderFn.writeViewValue },
       { c with
          onChangeCbs := c.onChangeCbs ++ [CompCb.setViewValue]
          onTouchedCbs :=
            if c.hasRegisterOnTouched then c.onTouchedCbs ++ [CompCb.setTouched]
            else c.onTouchedCbs })
    else (some m, c)
  | none => (none, c)

/-- The descriptor passed to `downgradeComponent`.  The component type is
identified by its name (only its name is observable in this subsystem, via
`getTypeName`). -/
structure ComponentInfo where
  component : String
  downgradedModule : Option String
  propagateDigest : Option Bool

/-- The module-qualified lazy-module-reference key computed in the link
function (angular1.js lines 527-528): `LAZY_MODULE_REF + (info.downgradedModule || "")`. -/
def lazyModuleRefKeyOf (info : ComponentInfo) : String :=
  LAZY_MODULE_REF ++ info.downgradedModule.getD ""

/-- External collaborators of the link function: the AngularJS `$injector` and
the component-factory resolution of the module injector
(`moduleInjector.get(ComponentFactoryResolver).resolveComponentFactory(component)`,
giving a factory id or nothing). -/
structure LinkEnv where
  injSvc : Ng1Injector
  resolveComponentFactory : Inj → String → Option Nat

/-- Observable events of one link invocation, in order of occurrence.
`microtask` marks the crossing of a microtask boundary (the join promise
settling after the synchronous link body has returned); `createComponent p m`
is the delegation to the downgrade adapter with effective parent injector `p`
and module injector `m` (the adapter call sequence compileContents /
createComponent / setupInputs / setupOutputs / registerCleanup plus the
parent-injector-promise resolution, collapsed into one event);
`evalAsync` is the deferred no-op `scope.$evalAsync` scheduling. -/
inductive Ev
  | validateKey : String → Ev
  | getLazyModuleRef : String → Ev
  | microtask : Ev
  | createComponent : Inj → Inj → Ev
  | evalAsync : Ev
deriving DecidableEq

/-- angular1.js line 513: `isNgUpgradeLite && getDowngradedModuleCount($injector) > 1`. -/
def hasMultipleDowngradedModules (injSvc : Ng1Injector) : Bool :=
  (getUpgradeAppType injSvc == 3) && decide (1 < getDowngradedModuleCount injSvc)

/-- The value `lazyModuleRef.injector || lazyModuleRef.promise`
(angular1.js line 532): the already-resolved injector if present, else the
pending promise, else undefined. -/
def lazyModuleRefValue (r : LazyModuleRef) : Option Dyn :=
  match r.injector with
  | some i => some (Dyn.inj i)
  | none => r.promise.map Dyn.thenable

/-- The guarded block of the link function (angular1.js lines 526-533): when
there is no parent injector, or multiple downgraded modules exist, resolve the
declaring lazy module by validated lookup.  Returns the resulting
`moduleInjector` (undefined when the block is skipped) together with the
events it performed. -/
def computeModuleInjector (env : LinkEnv) (info : ComponentInfo)
    (parentInjector : Option Dyn) (hasMultiple : Bool) :
    Except String (Option Dyn × List Ev) :=
  if parentInjector.isNone || hasMultiple then
    let downgradedModule := info.downgradedModule.getD ""
    let lazyModuleRefKey := LAZY_MODULE_REF ++ downgradedModule
    let attemptedAction := "instantiating component " ++ info.component
    match validateInjectionKey env.injSvc downgradedModule lazyModuleRefKey attemptedAction with
    | Except.error e => Except.error e
    | Except.ok () =>
      let lazyModuleRef := env.injSvc.getLazyModuleRef lazyModuleRefKey
      Except.ok (lazyModuleRefValue lazyModuleRef,
                 [Ev.validateKey lazyModuleRefKey, Ev.getLazyModuleRef lazyModuleRefKey])
  else
    Except.ok (none, [])

/-- angular1.js lines 567-571: `finalParentInjector = parentInjector || moduleInjector`
and `finalModuleInjector = moduleInjector || parentInjector`. -/
def finalInjectors (parentInjector moduleInjector : Option Dyn) : Option Dyn × Option Dyn :=
  (parentInjector <|> moduleInjector, moduleInjector <|> parentInjector)

/-- angular1.js lines 646-648: `isFunction(obj.then)`.  Reading `.then` off an
undefined value is a TypeError. -/
def isThenable : Option Dyn → Except String Bool
  | none => Except.error ("TypeError: cannot read property then of undefined")
  | some (Dyn.inj _) => Except.ok false
  | some (Dyn.thenable _) => Except.ok true

/-- The injector a promise-or-value slot delivers once awaited by the
`Promise.all` join (a plain injector resolves to itself, a thenable to its
eventual value). -/
def resolveDyn : Option Dyn → Except String Inj
  | none => Except.error ("TypeError: undefined injector")
  | some (Dyn.inj i) => Except.ok i
  | some (Dyn.thenable v) => Except.ok v

/-- angular1.js lines 572-593, `doDowngrade`: resolve the component factory
from the module injector (throwing when there is none), then delegate to the
downgrade adapter and, when `ranAsync` is set, schedule the deferred no-op
`scope.$evalAsync`.  In Lite mode the call is additionally routed through the
NgZone wrapper (lines 594-599), which runs it synchronously and does not
change the emitted events. -/
def doDowngrade (env : LinkEnv) (info : ComponentInfo) (ranAsync : Bool)
    (injector moduleInjector : Inj) : Except String (List Ev) :=
  match env.resolveComponentFactory moduleInjector info.component with
  | none => Except.error ("Expecting ComponentFactory for: " ++ info.component)
  | some _ =>
    Except.ok ([Ev.createComponent injector moduleInjector] ++
               (if ranAsync then [Ev.evalAsync] else []))

/-- The link function of the directive returned by `downgradeComponent`
(angular1.js lines 518-608).  The mutable flag `ranAsync` is threaded by
control flow: the synchronous branch calls `downgradeFn` before the trailing
`ranAsync = true` assignment runs (so the flag is still false there), while
the `Promise.all` continuation runs on a later microtask, after the
assignment (so the flag is true there). -/
def downgradeComponentLink (env : LinkEnv) (info : ComponentInfo)
    (parentInjector : Option Dyn) : Except String (List Ev) :=
  match computeModuleInjector env info parentInjector (hasMultipleDowngradedModules env.injSvc) with
  | Except.error e => Except.error e
  | Except.ok (moduleInjector, evs) =>
    let fp := (finalInjectors parentInjector moduleInjector).1
    let fm := (finalInjectors parentInjector moduleInjector).2
    match isThenable fp, isThenable fm with
    | Except.error e, _ => Except.error e
    | Except.ok _, Except.error e => Except.error e
    | Except.ok tp, Except.ok tm =>
      if tp || tm then
        match resolveDyn fp, resolveDyn fm with
        | Except.error e, _ => Except.error e
        | Except.ok _, Except.error e => Except.error e
        | Except.ok pInjector, Except.ok mInjector =>
          match doDowngrade env info true pInjector mInjector with
          | Except.error e => Except.error e
          | Except.ok evs2 => Except.ok (evs ++ [Ev.microtask] ++ evs2)
      else
        match resolveDyn fp, resolveDyn fm with
        | Except.error e, _ => Except.error e
        | Except.ok _, Except.error e => Except.error e
        | Except.ok pInjector, Except.ok mInjector =>
          match doDowngrade env info false pInjector mInjector with
          | Except.error e => Except.error e
          | Except.ok evs2 => Except.ok (evs ++ evs2)

/-- The bootstrap source handed to the lazy-module-reference factory, as far
as its timing is observable: `async r` is a bootstrap function returning a
real promise that delivers a module reference whose injector is `r`.  Whether
that promise is already resolved when returned or settles on a later tick
makes no difference at the factory's return: a promise continuation always
runs on a later microtask. -/
inductive BootstrapStub
  | async : Inj → BootstrapStub

/-- The factory `downgradeModule` registers under the lazy-module-reference
keys (downgrade_module.js lines 132-147).  Its `then` continuation wraps the
bootstrapped module injector in an `NgAdapterInjector` and stores it in both
the closure variable and `result.injector` — but the continuation of a real
promise runs on a later microtask, after the record has been returned, even
when the promise is already resolved.  So at return time only `promise` is
populated and `injector` is still unset; the chained promise resolves to the
wrapped injector. -/
def lazyModuleRefFactory : BootstrapStub → LazyModuleRef
  | BootstrapStub.async refInjector =>
    { needsNgZone := true
      injector := none
      promise := some (Inj.adapter refInjector) }

/-- The same factory under a bootstrap stub whose thenable invokes its
continuation synchronously (the other reading of a synchronously-resolving
stub).  The continuation assigns `result.injector` while the `const result`
binding is still being initialized (the `then` call is evaluated inside the
object literal, downgrade_module.js lines 137-144), so it dereferences an
uninitialized binding: the factory throws a ReferenceError instead of
returning a record. -/
def lazyModuleRefFactorySyncThenable (_refInjector : Inj) : Except String LazyModuleRef :=
  Except.error ("ReferenceError: cannot access result before initialization")

/-- The effect of the bootstrap promise settling (downgrade_module.js lines
139-143): the continuation stores the wrapped injector into the record (and
the module closure variable). -/
def bootstrapComplete (r : LazyModuleRef) : LazyModuleRef :=
  { r with injector := r.promise }

/-- The per-module injector factory registered under the lazy injector key
(downgrade_module.js lines 124-130): throws before the bootstrap continuation
has stored the injector, afterwards returns it.  The closure variable is
modelled as an `Option Inj` and returned unchanged on success (the factory
does not clear it). -/
def lazyInjectorFactory (injector : Option Inj) : Except String (Inj × Option Inj) :=
  match injector with
  | none =>
    Except.error ("Trying to get the Angular injector before bootstrapping the corresponding Angular module.")
  | some i => Except.ok (i, some i)

/-- The AngularJS DI container an application sees after loading one wrapper
module created by `downgradeModule` (plus `count - 1` further ones): the Lite
app-type constant, the Downgraded-Module Count, and the injector and
lazy-module-reference entries under both the bare and the module-qualified
keys (downgrade_module.js lines 121-153).  `lmr` is the lazy-module-reference
record the container currently hands out (the cached factory result). -/
def liteAppInjector (moduleName : String) (count : Nat) (lmr : LazyModuleRef) : Ng1Injector where
  has k :=
    k == UPGRADE_APP_TYPE_KEY || k == DOWNGRADED_MODULE_COUNT_KEY ||
    k == INJECTOR_KEY || k == LAZY_MODULE_REF ||
    k == INJECTOR_KEY ++ moduleName || k == LAZY_MODULE_REF ++ moduleName
  getNum k :=
    if k == UPGRADE_APP_TYPE_KEY then 3
    else if k == DOWNGRADED_MODULE_COUNT_KEY then count
    else 0
  getLazyModuleRef _ := lmr

/-- A downgrade request naming no owning module (the single-module scenario). -/
def testComponentInfo : ComponentInfo :=
  { component := "TestComponent", downgradedModule := none, propagateDigest := none }

/-- The link environment of a first instantiation: one lazy module whose
bootstrap stub delivers the module injector `r`, the lazy-module-reference
record freshly produced by the factory, and a component factory that
resolves. -/
def scenarioEnv (stub : BootstrapStub) : LinkEnv where
  injSvc := liteAppInjector "testModule" 1 (lazyModuleRefFactory stub)
  resolveComponentFactory := fun _ _ => some 0

/-- The link environment of a later instantiation, after the bootstrap
promise has settled: the cached lazy-module-reference record already carries
the resolved injector. -/
def settledScenarioEnv (r : Inj) : LinkEnv where
  injSvc := liteAppInjector "testModule" 1
    (bootstrapComplete (lazyModuleRefFactory (BootstrapStub.async r)))
  resolveComponentFactory := fun _ _ => some 0

/-- The generated wrapper-module name (downgrade_module.js line 109):
`UPGRADE_MODULE_NAME + ".lazy" + uid`, with the counter rendered in decimal. -/
def downgradeModuleName (uid : Nat) : String :=
  UPGRADE_MODULE_NAME ++ ".lazy" ++ Nat.repr uid

/-- One call of `downgradeModule` as far as the name generation is concerned
(downgrade_module.js lines 107-113): pre-increment the process-wide counter
and build the name from the new value.  Returns the name and the new counter. -/
def downgradeModuleStep (uid : Nat) : String × Nat :=
  (downgradeModuleName (uid + 1), uid + 1)

/-- A sequence of `n` calls of `downgradeModule` starting from counter value
`uid`: the returned names in order, and the final counter. -/
def downgradeModuleSeq : Nat → Nat → List String × Nat
  | 0, uid => ([], uid)
  | n + 1, uid =>
    let r := downgradeModuleStep uid
    let rest := downgradeModuleSeq n r.2
    (r.1 :: rest.1, rest.2)

/-- The configuration block of one wrapper module (downgrade_module.js lines
148-153): re-register the Downgraded-Module Count constant as the current
count (0 when absent) plus one.  The DI entry is modelled as an `Option Nat`,
`none` when the key was never registered. -/
def runCountConfig (count : Option Nat) : Option Nat :=
  some (count.getD 0 + 1)

/-- Running the configuration blocks of `n` wrapper modules in sequence. -/
def runConfigs : Nat → Option Nat → Option Nat
  | 0, c => c
  | n + 1, c => runConfigs n (runCountConfig c)

/-- What the element data store holds under the injector key: the
parent-injector-promise object itself, or, after resolution, the raw
injector. -/
inductive StoredVal
  | pipRef
  | rawInjector : Inj → StoredVal
deriving DecidableEq

/-- State of a `ParentInjectorPromise` (angular1.js lines 619-645) together
with the element data slot it owns: the resolved injector (if any), the queue
of pending callbacks (identified by numbers), whether the object has released
its element reference (`this.element = null`), and the element data under the
injector key. -/
structure PipState where
  injector : Option Inj
  callbacks : List Nat
  elementReleased : Bool
  elementData : Option StoredVal
deriving DecidableEq

/-- State right after construction (angular1.js lines 620-626): nothing
resolved, no callbacks, and the promise object stored on the element. -/
def pipInit : PipState :=
  { injector := none, callbacks := [], elementReleased := false,
    elementData := some StoredVal.pipRef }

/-- Operations performed on a `ParentInjectorPromise`. -/
inductive PipOp
  | thenOp : Nat → PipOp
  | resolveOp : Inj → PipOp
deriving DecidableEq

/-- Whether an operation is a `then` call. -/
def PipOp.isThen : PipOp → Bool
  | PipOp.thenOp _ => true
  | PipOp.resolveOp _ => false

/-- The callbacks registered by the `then` calls of an operation list, in
order. -/
def cbsOf (ops : List PipOp) : List Nat :=
  ops.filterMap (fun op =>
    match op with
    | PipOp.thenOp cb => some cb
    | PipOp.resolveOp _ => none)

/-- One operation on a `ParentInjectorPromise` (angular1.js lines 627-644).
`then`: invoke the callback at once when resolved, else enqueue it.
`resolve`: record the injector, overwrite the element data with the raw
injector, release the element reference, then flush the queue in order.
Calling `resolve` after the element reference was released dereferences null
(a TypeError), modelled as `none`.  The second component lists the callback
invocations the operation performed, as (callback, injector) pairs. -/
def pipStep (s : PipState) : PipOp → Option (PipState × List (Nat × Inj))
  | PipOp.thenOp cb =>
    match s.injector with
    | some i => some (s, [(cb, i)])
    | none => some ({ s with callbacks := s.callbacks ++ [cb] }, [])
  | PipOp.resolveOp i =>
    if s.elementReleased then none
    else
      some ({ injector := some i, callbacks := [], elementReleased := true,
              elementData := some (StoredVal.rawInjector i) },
            s.callbacks.map (fun cb => (cb, i)))

/-- Run a list of operations in sequence, accumulating the callback
invocations and propagating failure. -/
def pipRun (s : PipState) : List PipOp → Option (PipState × List (Nat × Inj))
  | [] => some (s, [])
  | op :: ops =>
    (pipStep s op).bind (fun r1 =>
      (pipRun r1.1 ops).map (fun r2 => (r2.1, r1.2 ++ r2.2)))

/-- A DI container recording an arbitrary mode and count, with some further
keys present; used to instantiate the validation-helper theorems. -/
def modeInjector (appType count : Nat) (keys : List String) : Ng1Injector where
  has k := k == UPGRADE_APP_TYPE_KEY || k == DOWNGRADED_MODULE_COUNT_KEY || keys.contains k
  getNum k :=
    if k == UPGRADE_APP_TYPE_KEY then appType
    else if k == DOWNGRADED_MODULE_COUNT_KEY then count
    else 0
  getLazyModuleRef _ := lazyModuleRefFactory (BootstrapStub.async (Inj.raw 0))

/-- Decimal accumulator step: the value of one more decimal digit character
appended on the right. -/
def decValStep (a : Nat) (c : Char) : Nat :=
  a * 10 + (c.toNat - 48)

/-- Value of a decimal digit character. -/
theorem digitChar_toNat_sub (m : Nat) (h : m < 10) : (Nat.digitChar m).toNat - 48 = m := by
  interval_cases m <;> rfl

/-- Folding the decimal value over the digits that `Nat.toDigitsCore`
prepends recovers the rendered number. -/
theorem toDigitsCore_foldl (f : Nat) :
    ∀ (n : Nat) (l : List Char), n < f →
      (Nat.toDigitsCore 10 f n l).foldl decValStep 0 = l.foldl decValStep n := by
  induction f with
  | zero => intro n l h; omega
  | succ f ih =>
    intro n l h
    by_cases h10 : n / 10 = 0
    · have hlt : n < 10 := by omega
      have : Nat.toDigitsCore 10 (f + 1) n l = Nat.digitChar (n % 10) :: l := by
        simp [Nat.toDigitsCore, h10]
      rw [this]
      simp only [List.foldl_cons, decValStep, Nat.zero_mul, Nat.zero_add]
      rw [digitChar_toNat_sub (n % 10) (Nat.mod_lt n (by omega))]
      rw [Nat.mod_eq_of_lt hlt]
    · have hn : 0 < n := by
        rcases Nat.eq_zero_or_pos n with h0 | h0
        · exfalso; apply h10; rw [h0]
        · exact h0
      have hrec : Nat.toDigitsCore 10 (f + 1) n l
          = Nat.toDigitsCore 10 f (n / 10) (Nat.digitChar (n % 10) :: l) := by
        simp [Nat.toDigitsCore, h10]
      have hfuel : n / 10 < f := by
        have hdiv : n / 10 < n := Nat.div_lt_self hn (by omega)
        omega
      rw [hrec, ih (n / 10) (Nat.digitChar (n % 10) :: l) hfuel]
      simp only [List.foldl_cons, decValStep]
      rw [digitChar_toNat_sub (n % 10) (Nat.mod_lt n (by omega))]
      have : n / 10 * 10 + n % 10 = n := by omega
      rw [this]

/-- The decimal value of the rendered digits of `n` is `n`. -/
theorem toDigits_foldl (n : Nat) : (Nat.toDigits 10 n).foldl decValStep 0 = n := by
  have := toDigitsCore_foldl (n + 1) n [] (Nat.lt_succ_self n)
  simpa [Nat.toDigits] using this

/-- Decimal rendering of naturals is injective. -/
theorem natRepr_injective : Function.Injective Nat.repr := by
  intro a b h
  have hs : (Nat.toDigits 10 a).asString = (Nat.toDigits 10 b).asString := h
  have hdata : Nat.toDigits 10 a = Nat.toDigits 10 b := by
    have := congrArg String.data hs
    simpa [List.asString] using this
  have ha := toDigits_foldl a
  have hb := toDigits_foldl b
  rw [← ha, ← hb, hdata]

/-- C5: the injector handoff cell: `injectorFactory` throws whenever the slot
is empty (never set, or cleared by a previous successful read); a call after
`setTempInjectorRef i` returns `i` and clears the slot, so a second read
without an intervening write also throws. -/
theorem injector_handoff_cell_contract (cell : Option Inj) (i : Inj) :
    (∃ e, injectorFactory (none : Option Inj) = Except.error e)
    ∧ injectorFactory (setTempInjectorRef i cell) = Except.ok (i, none)
    ∧ (∀ j next, injectorFactory cell = Except.ok (j, next) →
        ∃ e, injectorFactory next = Except.error e) := by
  refine ⟨⟨_, rfl⟩, rfl, ?_⟩
  intro j next h
  cases cell with
  | none => exact absurd h (by simp [injectorFactory])
  | some v =>
    have hpair := Except.ok.inj h
    have hnext : none = next := congrArg Prod.snd hpair
    rw [← hnext]
    exact ⟨_, rfl⟩

/-- C5 witness: reading after a read that followed a write fails. -/
theorem injector_handoff_cell_contract_witness :
    ∃ e, injectorFactory (none : Option Inj) = Except.error e :=
  (injector_handoff_cell_contract (some (Inj.raw 0)) (Inj.raw 1)).2.2 (Inj.raw 0) none rfl

/-- C7: in LegacyDynamic (1) or LegacyStatic (2) mode, `validateInjectionKey`
throws if and only if a non-empty downgraded-module name was supplied; with
the empty name it returns normally (the lookup key being present). -/
theorem validateInjectionKey_legacy_modes (injSvc : Ng1Injector) (dm key action : String)
    (hMode : getUpgradeAppType injSvc = 1 ∨ getUpgradeAppType injSvc = 2)
    (hKey : injSvc.has key = true) :
    ((∃ e, validateInjectionKey injSvc dm key action = Except.error e) ↔ dm ≠ "")
    ∧ (dm = "" → validateInjectionKey injSvc dm key action = Except.ok ()) := by
  simp only [validateInjectionKey]
  rw [if_pos hMode]
  by_cases hdm : dm = ""
  · subst hdm
    simp
  · rw [if_pos hdm]
    simp [hdm]

/-- C7 witness: LegacyStatic mode, existing key. -/
theorem validateInjectionKey_legacy_modes_witness :
    ((∃ e, validateInjectionKey (modeInjector 2 1 ["k"]) "extra" "k" "act" = Except.error e)
        ↔ "extra" ≠ "")
    ∧ ("extra" = "" →
        validateInjectionKey (modeInjector 2 1 ["k"]) "extra" "k" "act" = Except.ok ()) :=
  validateInjectionKey_legacy_modes (modeInjector 2 1 ["k"]) "extra" "k" "act"
    (Or.inr (by decide)) (by decide)

/-- C6: in Lite (LiteMultiModule, 3) mode, `validateInjectionKey` throws when
no downgraded-module name is supplied and the recorded count is at least 2;
throws when the container does not have the injection key; and returns
normally when naming a module whose key exists, or when no name is given, the
count is below 2 and the key exists. -/
theorem validateInjectionKey_lite_mode (injSvc : Ng1Injector) (dm key action : String)
    (hMode : getUpgradeAppType injSvc = 3) :
    (dm = "" → 2 ≤ getDowngradedModuleCount injSvc →
        ∃ e, validateInjectionKey injSvc dm key action = Except.error e)
    ∧ (injSvc.has key = false →
        ∃ e, validateInjectionKey injSvc dm key action = Except.error e)
    ∧ (dm ≠ "" → injSvc.has key = true →
        validateInjectionKey injSvc dm key action = Except.ok ())
    ∧ (dm = "" → getDowngradedModuleCount injSvc < 2 → injSvc.has key = true →
        validateInjectionKey injSvc dm key action = Except.ok ()) := by
  simp only [validateInjectionKey, hMode]
  norm_num
  refine ⟨?_, ?_, ?_, ?_⟩
  · intro h1 h2
    rw [if_pos ⟨h1, h2⟩]
    exact ⟨_, rfl⟩
  · intro hk
    by_cases hc : dm = "" ∧ 2 ≤ getDowngradedModuleCount injSvc
    · rw [if_pos hc]
      exact ⟨_, rfl⟩
    · rw [if_neg hc, if_pos (by simp [hk])]
      exact ⟨_, rfl⟩
  · intro hdm hk
    rw [if_neg (by simp [hdm]), if_neg (by simp [hk])]
  · intro hdm hcount hk
    rw [if_neg (by rintro ⟨h1, h2⟩; omega), if_neg (by simp [hk])]

/-- C6 witness: Lite mode with two downgraded modules and an existing key. -/
theorem validateInjectionKey_lite_mode_witness :
    ("" = "" → 2 ≤ getDowngradedModuleCount (modeInjector 3 2 ["k"]) →
        ∃ e, validateInjectionKey (modeInjector 3 2 ["k"]) "" "k" "act" = Except.error e)
    ∧ ((modeInjector 3 2 ["k"]).has "k" = false →
        ∃ e, validateInjectionKey (modeInjector 3 2 ["k"]) "" "k" "act" = Except.error e)
    ∧ ("" ≠ "" → (modeInjector 3 2 ["k"]).has "k" = true →
        validateInjectionKey (modeInjector 3 2 ["k"]) "" "k" "act" = Except.ok ())
    ∧ ("" = "" → getDowngradedModuleCount (modeInjector 3 2 ["k"]) < 2 →
        (modeInjector 3 2 ["k"]).has "k" = true →
        validateInjectionKey (modeInjector 3 2 ["k"]) "" "k" "act" = Except.ok ()) :=
  validateInjectionKey_lite_mode (modeInjector 3 2 ["k"]) "" "k" "act" (by decide)

/-- C9: the per-module injector factory registered by `downgradeModule` throws
before the bootstrap continuation has stored the injector, and once the
bootstrap has completed it returns the stored (adapter-wrapped) injector on
this and every further invocation, leaving the slot populated. -/
theorem lazyModule_injector_factory (r : Inj) :
    (∃ e, lazyInjectorFactory (lazyModuleRefFactory (BootstrapStub.async r)).injector
        = Except.error e)
    ∧ (∃ st,
        lazyInjectorFactory (bootstrapComplete (lazyModuleRefFactory (BootstrapStub.async r))).injector
          = Except.ok (Inj.adapter r, st)
        ∧ lazyInjectorFactory st = Except.ok (Inj.adapter r, st)) :=
  ⟨⟨_, rfl⟩, ⟨some (Inj.adapter r), rfl, rfl⟩⟩

/-- C10: `hookupNgModel` wires the model controller (sets the render closure,
registers the view-value change callback, and registers the touched callback
exactly when the component also has a function-valued `registerOnTouched`)
exactly when the model controller is present and the component has
function-valued `writeValue` and `registerOnChange`; otherwise it is a no-op
and both arguments are returned unchanged. -/
theorem hookupNgModel_wiring (ngModel : Option NgModelController) (c : Component) :
    (∀ m, ngModel = some m → supportsNgModel c = true →
        hookupNgModel ngModel c =
          (some { m with render := some RenderFn.writeViewValue },
           { c with
              onChangeCbs := c.onChangeCbs ++ [CompCb.setViewValue]
              onTouchedCbs :=
                if c.hasRegisterOnTouched then c.onTouchedCbs ++ [CompCb.setTouched]
                else c.onTouchedCbs }))
    ∧ (ngModel = none ∨ supportsNgModel c = false → hookupNgModel ngModel c = (ngModel, c)) := by
  constructor
  · rintro m rfl hs
    simp [hookupNgModel, hs]
  · rintro (rfl | hs)
    · rfl
    · cases ngModel with
      | none => rfl
      | some m => simp [hookupNgModel, hs]

/-- C10 witness: a model controller and a full `ControlValueAccessor`
component get wired. -/
theorem hookupNgModel_wiring_witness :
    hookupNgModel (some { render := none })
        { hasWriteValue := true, hasRegisterOnChange := true, hasRegisterOnTouched := true,
          onChangeCbs := [], onTouchedCbs := [] } =
      (some { render := some RenderFn.writeViewValue },
       { hasWriteValue := true, hasRegisterOnChange := true, hasRegisterOnTouched := true,
         onChangeCbs := [CompCb.setViewValue], onTouchedCbs := [CompCb.setTouched] }) := by
  have h := (hookupNgModel_wiring (some { render := none })
      { hasWriteValue := true, hasRegisterOnChange := true, hasRegisterOnTouched := true,
        onChangeCbs := [], onTouchedCbs := [] }).1 { render := none } rfl rfl
  simpa using h

/-- Generated wrapper-module names are pairwise distinct across counter
values. -/
theorem downgradeModuleName_injective : Function.Injective downgradeModuleName := by
  intro a b h
  have hd := congrArg String.data h
  simp only [downgradeModuleName, String.data_append] at hd
  have h1 := List.append_cancel_left hd
  exact natRepr_injective (String.ext h1)

/-- Running `n` count-configuration blocks from a populated count entry adds
`n`. -/
theorem runConfigs_some (n : Nat) : ∀ k, runConfigs n (some k) = some (k + n) := by
  induction n with
  | zero => intro k; rfl
  | succ m ih =>
    intro k
    have h1 : runConfigs (m + 1) (some k) = runConfigs m (some (k + 1)) := rfl
    rw [h1, ih (k + 1)]
    congr 1
    omega

/-- Closed form of a registration sequence: the names carry the successive
counter values, and the counter advances by the number of calls. -/
theorem downgradeModuleSeq_closed (n : Nat) : ∀ uid,
    (downgradeModuleSeq n uid).1
      = (List.range n).map (fun k => downgradeModuleName (uid + k + 1))
    ∧ (downgradeModuleSeq n uid).2 = uid + n := by
  induction n with
  | zero => intro uid; exact ⟨rfl, rfl⟩
  | succ m ih =>
    intro uid
    obtain ⟨h1, h2⟩ := ih (uid + 1)
    constructor
    · show downgradeModuleName (uid + 1) :: (downgradeModuleSeq m (uid + 1)).1 = _
      rw [h1, List.range_succ_eq_map, List.map_cons, List.map_map]
      refine congrArg₂ List.cons rfl ?_
      have hfun : ((fun k => downgradeModuleName (uid + k + 1)) ∘ Nat.succ)
          = fun k => downgradeModuleName (uid + 1 + k + 1) := by
        funext k
        simp only [Function.comp]
        congr 1
        omega
      rw [hfun]
    · show (downgradeModuleSeq m (uid + 1)).2 = uid + (m + 1)
      rw [h2]
      omega

/-- C8: every sequence of `n` `downgradeModule` calls returns the names built
from the successive counter values (hence strictly ordered by the
monotonically increasing counter), the names are pairwise distinct, the
counter ends at its start plus `n`, and after the `n` registered
configuration blocks have run the recorded Downgraded-Module Count is `n`. -/
theorem downgradeModule_names_count (n uid : Nat) :
    (downgradeModuleSeq n uid).1
      = (List.range n).map (fun k => downgradeModuleName (uid + k + 1))
    ∧ ((downgradeModuleSeq n uid).1).Nodup
    ∧ (downgradeModuleSeq n uid).2 = uid + n
    ∧ (runConfigs n none).getD 0 = n := by
  obtain ⟨h1, h2⟩ := downgradeModuleSeq_closed n uid
  refine ⟨h1, ?_, h2, ?_⟩
  · rw [h1]
    refine List.Nodup.map ?_ (List.nodup_range n)
    intro a b hab
    have := downgradeModuleName_injective hab
    omega
  · cases n with
    | zero => rfl
    | succ m =>
      have h3 : runConfigs (m + 1) none = runConfigs m (some 1) := rfl
      rw [h3, runConfigs_some m 1, Option.getD_some]
      omega

/-- Runs decompose along list concatenation. -/
theorem pipRun_append (l1 : List PipOp) : ∀ (s : PipState) (l2 : List PipOp),
    pipRun s (l1 ++ l2)
      = (pipRun s l1).bind (fun r1 =>
          (pipRun r1.1 l2).map (fun r2 => (r2.1, r1.2 ++ r2.2))) := by
  induction l1 with
  | nil =>
    intro s l2
    simp only [List.nil_append, pipRun, Option.some_bind]
    cases h : pipRun s l2 with
    | none => rfl
    | some r => simp
  | cons op l ih =>
    intro s l2
    simp only [List.cons_append, pipRun, List.append_eq]
    cases hs : pipStep s op with
    | none => rfl
    | some r1 =>
      simp only [Option.some_bind, ih r1.1 l2]
      cases h2 : pipRun r1.1 l with
      | none => rfl
      | some r2 =>
        simp only [Option.some_bind, Option.map_some']
        cases h3 : pipRun r2.1 l2 with
        | none => rfl
        | some r3 => simp [List.append_assoc]

/-- then-calls on an unresolved promise only enqueue, in order, and invoke
nothing. -/
theorem pipRun_thens_pending (l : List PipOp) : ∀ (s : PipState),
    (∀ op ∈ l, op.isThen = true) → s.injector = none →
    pipRun s l = some ({ s with callbacks := s.callbacks ++ cbsOf l }, []) := by
  induction l with
  | nil => intro s _ _; simp [pipRun, cbsOf]
  | cons op l ih =>
    intro s hl hs
    cases op with
    | resolveOp j => exact absurd (hl _ (List.mem_cons_self _ _)) (by simp [PipOp.isThen])
    | thenOp cb =>
      have hstep : pipStep s (PipOp.thenOp cb)
          = some ({ s with callbacks := s.callbacks ++ [cb] }, []) := by
        simp [pipStep, hs]
      have hrec := ih { s with callbacks := s.callbacks ++ [cb] }
        (fun op hop => hl op (List.mem_cons_of_mem _ hop)) hs
      simp only [pipRun, hstep, Option.some_bind, hrec, Option.map_some']
      simp [cbsOf, List.append_assoc]

/-- then-calls on a resolved promise invoke each callback immediately with the
resolved injector and leave the state unchanged. -/
theorem pipRun_thens_resolved (l : List PipOp) : ∀ (s : PipState) (i : Inj),
    (∀ op ∈ l, op.isThen = true) → s.injector = some i →
    pipRun s l = some (s, (cbsOf l).map (fun cb => (cb, i))) := by
  induction l with
  | nil => intro s i _ _; simp [pipRun, cbsOf]
  | cons op l ih =>
    intro s i hl hs
    cases op with
    | resolveOp j => exact absurd (hl _ (List.mem_cons_self _ _)) (by simp [PipOp.isThen])
    | thenOp cb =>
      have hstep : pipStep s (PipOp.thenOp cb) = some (s, [(cb, i)]) := by
        simp [pipStep, hs]
      have hrec := ih s i (fun op hop => hl op (List.mem_cons_of_mem _ hop)) hs
      simp only [pipRun, hstep, Option.some_bind, hrec, Option.map_some']
      simp [cbsOf]

/-- C4: for a parent-injector promise resolved at most once: callbacks
registered before `resolve` are only queued (nothing is invoked before
`resolve`); the full run invokes the queued callbacks exactly once each, in
registration order, with the resolved injector, followed by the callbacks
registered after `resolve`, each invoked immediately with the injector; and
the final state stores the raw injector in the element data under the
injector key, has released the element reference, and has an empty queue. -/
theorem parentInjectorPromise_contract (pre post : List PipOp) (i : Inj)
    (hpre : ∀ op ∈ pre, op.isThen = true) (hpost : ∀ op ∈ post, op.isThen = true) :
    pipRun pipInit pre = some ({ pipInit with callbacks := cbsOf pre }, [])
    ∧ pipRun pipInit (pre ++ PipOp.resolveOp i :: post)
        = some ({ injector := some i, callbacks := [], elementReleased := true,
                  elementData := some (StoredVal.rawInjector i) },
                (cbsOf pre).map (fun cb => (cb, i))
                  ++ (cbsOf post).map (fun cb => (cb, i))) := by
  have hfirst : pipRun pipInit pre = some ({ pipInit with callbacks := cbsOf pre }, []) :=
    pipRun_thens_pending pre pipInit hpre rfl
  refine ⟨hfirst, ?_⟩
  rw [pipRun_append pre pipInit (PipOp.resolveOp i :: post), hfirst]
  have hresolve : pipStep { pipInit with callbacks := cbsOf pre } (PipOp.resolveOp i)
      = some ({ injector := some i, callbacks := [], elementReleased := true,
                elementData := some (StoredVal.rawInjector i) },
              (cbsOf pre).map (fun cb => (cb, i))) := by
    simp [pipStep, pipInit]
  have hrest := pipRun_thens_resolved post
    { injector := some i, callbacks := [], elementReleased := true,
      elementData := some (StoredVal.rawInjector i) } i hpost rfl
  simp only [Option.some_bind, pipRun, hresolve, hrest, Option.map_some']
  simp

/-- C4 witness: two callbacks queued before resolution, one registered after. -/
theorem parentInjectorPromise_contract_witness :
    pipRun pipInit [PipOp.thenOp 1, PipOp.thenOp 2]
        = some ({ pipInit with callbacks := cbsOf [PipOp.thenOp 1, PipOp.thenOp 2] }, [])
    ∧ pipRun pipInit
          ([PipOp.thenOp 1, PipOp.thenOp 2] ++ PipOp.resolveOp (Inj.raw 7) :: [PipOp.thenOp 5])
        = some ({ injector := some (Inj.raw 7), callbacks := [], elementReleased := true,
                  elementData := some (StoredVal.rawInjector (Inj.raw 7)) },
                (cbsOf [PipOp.thenOp 1, PipOp.thenOp 2]).map (fun cb => (cb, Inj.raw 7))
                  ++ (cbsOf [PipOp.thenOp 5]).map (fun cb => (cb, Inj.raw 7))) :=
  parentInjectorPromise_contract [PipOp.thenOp 1, PipOp.thenOp 2] [PipOp.thenOp 5] (Inj.raw 7)
    (by decide) (by decide)

/-- The guarded lookup block emits either no events or exactly the validation
and the lazy-module-reference retrieval. -/
theorem computeModuleInjector_events (env : LinkEnv) (info : ComponentInfo)
    (parentInjector : Option Dyn) (hm : Bool) (mi : Option Dyn) (evs : List Ev)
    (h : computeModuleInjector env info parentInjector hm = Except.ok (mi, evs)) :
    evs = []
    ∨ evs = [Ev.validateKey (lazyModuleRefKeyOf info),
             Ev.getLazyModuleRef (lazyModuleRefKeyOf info)] := by
  simp only [computeModuleInjector] at h
  split at h
  · split at h
    · cases h
    · have hp := Except.ok.inj h
      injection hp with hmi hevs
      subst hevs
      right
      simp only [lazyModuleRefKeyOf]
  · have hp := Except.ok.inj h
    injection hp with hmi hevs
    subst hevs
    left
    rfl

/-- C1: in every link of the downgraded-component directive, the module
injector is obtained by validated lookup of the lazy-module-reference key
exactly when there is no ancestor injector or more than one lazy module is
registered in Lite mode; the effective parent injector is the ancestor
injector when present and otherwise the module injector, and the effective
module injector is the module injector when present and otherwise the
ancestor injector. -/
theorem downgradeComponent_injector_selection (env : LinkEnv) (info : ComponentInfo)
    (parentInjector : Option Dyn) (mi : Option Dyn) (evs : List Ev)
    (h : computeModuleInjector env info parentInjector (hasMultipleDowngradedModules env.injSvc)
        = Except.ok (mi, evs)) :
    ((Ev.validateKey (lazyModuleRefKeyOf info) ∈ evs
        ∧ Ev.getLazyModuleRef (lazyModuleRefKeyOf info) ∈ evs)
      ↔ (parentInjector = none ∨ hasMultipleDowngradedModules env.injSvc = true))
    ∧ ((parentInjector = none ∨ hasMultipleDowngradedModules env.injSvc = true) →
        mi = lazyModuleRefValue (env.injSvc.getLazyModuleRef (lazyModuleRefKeyOf info)))
    ∧ (¬ (parentInjector = none ∨ hasMultipleDowngradedModules env.injSvc = true) →
        mi = none ∧ evs = [])
    ∧ (∀ p, parentInjector = some p → (finalInjectors parentInjector mi).1 = some p)
    ∧ (parentInjector = none → (finalInjectors parentInjector mi).1 = mi)
    ∧ (∀ m, mi = some m → (finalInjectors parentInjector mi).2 = some m)
    ∧ (mi = none → (finalInjectors parentInjector mi).2 = parentInjector) := by
  have hfinal1 : ∀ p, parentInjector = some p → (finalInjectors parentInjector mi).1 = some p := by
    rintro p rfl
    rfl
  have hfinal2 : parentInjector = none → (finalInjectors parentInjector mi).1 = mi := by
    rintro rfl
    cases mi <;> rfl
  have hfinal3 : ∀ m, mi = some m → (finalInjectors parentInjector mi).2 = some m := by
    rintro m rfl
    rfl
  have hfinal4 : mi = none → (finalInjectors parentInjector mi).2 = parentInjector := by
    rintro rfl
    cases parentInjector <;> rfl
  have hcond : (parentInjector.isNone || hasMultipleDowngradedModules env.injSvc) = true
      ↔ (parentInjector = none ∨ hasMultipleDowngradedModules env.injSvc = true) := by
    simp [Option.isNone_iff_eq_none]
  simp only [computeModuleInjector] at h
  split at h
  · rename_i hif
    split at h
    · cases h
    · have hp := Except.ok.inj h
      injection hp with hmi hevs
      subst hevs
      subst hmi
      refine ⟨?_, ?_, ?_, hfinal1, hfinal2, hfinal3, hfinal4⟩
      · simp only [lazyModuleRefKeyOf]
        constructor
        · intro _
          exact hcond.mp hif
        · intro _
          simp
      · intro _
        simp only [lazyModuleRefKeyOf]
      · intro hno
        exact absurd (hcond.mp hif) hno
  · rename_i hif
    have hp := Except.ok.inj h
    injection hp with hmi hevs
    subst hevs
    subst hmi
    have hnot : ¬ (parentInjector = none ∨ hasMultipleDowngradedModules env.injSvc = true) := by
      intro hcontra
      exact hif (hcond.mpr hcontra)
    refine ⟨?_, ?_, ?_, hfinal1, hfinal2, hfinal3, hfinal4⟩
    · constructor
      · rintro ⟨hfalse, _⟩
        simp at hfalse
      · intro hcontra
        exact absurd hcontra hnot
    · intro hcontra
      exact absurd hcontra hnot
    · intro _
      exact ⟨rfl, rfl⟩

/-- C1 witness: a top-level component (no ancestor injector) in a
single-lazy-module Lite application resolves its module by validated lookup. -/
theorem downgradeComponent_injector_selection_witness :
    Ev.validateKey (lazyModuleRefKeyOf testComponentInfo)
        ∈ [Ev.validateKey (lazyModuleRefKeyOf testComponentInfo),
           Ev.getLazyModuleRef (lazyModuleRefKeyOf testComponentInfo)]
    ∧ Ev.getLazyModuleRef (lazyModuleRefKeyOf testComponentInfo)
        ∈ [Ev.validateKey (lazyModuleRefKeyOf testComponentInfo),
           Ev.getLazyModuleRef (lazyModuleRefKeyOf testComponentInfo)] :=
  (downgradeComponent_injector_selection (scenarioEnv (BootstrapStub.async (Inj.raw 0)))
      testComponentInfo none (some (Dyn.thenable (Inj.adapter (Inj.raw 0))))
      [Ev.validateKey (lazyModuleRefKeyOf testComponentInfo),
       Ev.getLazyModuleRef (lazyModuleRefKeyOf testComponentInfo)]
      rfl).1.mpr (Or.inl rfl)

/-- The adapter stage emits the component creation followed by exactly one
deferred evaluation when it ran asynchronously, and no deferred evaluation
otherwise. -/
theorem doDowngrade_events (env : LinkEnv) (info : ComponentInfo) (ranAsync : Bool)
    (p m : Inj) (evs2 : List Ev)
    (h : doDowngrade env info ranAsync p m = Except.ok evs2) :
    evs2 = [Ev.createComponent p m] ++ (if ranAsync then [Ev.evalAsync] else []) := by
  simp only [doDowngrade] at h
  split at h
  · cases h
  · exact (Except.ok.inj h).symm

/-- C2: whenever the link function succeeds, the lookup prologue performs no
component creation, no microtask crossing and no deferred evaluation; if
either effective injector is a thenable, the trace crosses exactly one
microtask boundary, then creates the component, then schedules exactly one
deferred no-op evaluation; if both are plain injectors, the trace creates the
component synchronously with no microtask crossing and schedules no deferred
evaluation. -/
theorem downgradeComponent_sync_async (env : LinkEnv) (info : ComponentInfo)
    (parentInjector : Option Dyn) (tr : List Ev)
    (h : downgradeComponentLink env info parentInjector = Except.ok tr) :
    ∃ evs mi p m,
      computeModuleInjector env info parentInjector (hasMultipleDowngradedModules env.injSvc)
        = Except.ok (mi, evs)
      ∧ Ev.microtask ∉ evs ∧ Ev.evalAsync ∉ evs ∧ (∀ a b, Ev.createComponent a b ∉ evs)
      ∧ (isThenable (finalInjectors parentInjector mi).1 = Except.ok true
          ∨ isThenable (finalInjectors parentInjector mi).2 = Except.ok true
          → tr = evs ++ [Ev.microtask, Ev.createComponent p m, Ev.evalAsync])
      ∧ (isThenable (finalInjectors parentInjector mi).1 = Except.ok false
          → isThenable (finalInjectors parentInjector mi).2 = Except.ok false
          → tr = evs ++ [Ev.createComponent p m]) := by
  simp only [downgradeComponentLink] at h
  split at h
  · cases h
  · rename_i mi evs heqmi
    have hevs := computeModuleInjector_events env info parentInjector
      (hasMultipleDowngradedModules env.injSvc) mi evs heqmi
    have hnomicro : Ev.microtask ∉ evs := by
      rcases hevs with rfl | rfl <;> simp
    have hnoeval : Ev.evalAsync ∉ evs := by
      rcases hevs with rfl | rfl <;> simp
    have hnocreate : ∀ a b, Ev.createComponent a b ∉ evs := by
      intro a b
      rcases hevs with rfl | rfl <;> simp
    split at h
    · cases h
    · cases h
    · rename_i tp tm heqtp heqtm
      split at h
      · rename_i hif
        split at h
        · cases h
        · cases h
        · rename_i p m heqp heqm
          split at h
          · cases h
          · rename_i evs2 heq2
            have h2 := doDowngrade_events env info true p m evs2 heq2
            refine ⟨evs, mi, p, m, heqmi, hnomicro, hnoeval, hnocreate, ?_, ?_⟩
            · intro _
              rw [← Except.ok.inj h, h2]
              simp
            · intro hfp hfm
              rw [heqtp] at hfp
              rw [heqtm] at hfm
              have htp := Except.ok.inj hfp
              have htm := Except.ok.inj hfm
              rw [htp, htm] at hif
              simp at hif
      · rename_i hif
        split at h
        · cases h
        · cases h
        · rename_i p m heqp heqm
          split at h
          · cases h
          · rename_i evs2 heq2
            have h2 := doDowngrade_events env info false p m evs2 heq2
            refine ⟨evs, mi, p, m, heqmi, hnomicro, hnoeval, hnocreate, ?_, ?_⟩
            · intro hor
              exfalso
              rcases hor with hfp | hfm
              · rw [heqtp] at hfp
                have := Except.ok.inj hfp
                rw [this] at hif
                simp at hif
              · rw [heqtm] at hfm
                have := Except.ok.inj hfm
                rw [this] at hif
                simp at hif
            · intro _ _
              rw [← Except.ok.inj h, h2]
              simp

/-- C2 witness: end-to-end asynchronous scenario, one lazy module whose
bootstrap resolves on a later tick, component instantiated with no ancestor
injector. -/
theorem downgradeComponent_sync_async_witness :
    ∃ evs mi p m,
      computeModuleInjector (scenarioEnv (BootstrapStub.async (Inj.raw 0))) testComponentInfo none
          (hasMultipleDowngradedModules (scenarioEnv (BootstrapStub.async (Inj.raw 0))).injSvc)
        = Except.ok (mi, evs)
      ∧ Ev.microtask ∉ evs ∧ Ev.evalAsync ∉ evs ∧ (∀ a b, Ev.createComponent a b ∉ evs)
      ∧ (isThenable (finalInjectors none mi).1 = Except.ok true
          ∨ isThenable (finalInjectors none mi).2 = Except.ok true
          → [Ev.validateKey (lazyModuleRefKeyOf testComponentInfo),
             Ev.getLazyModuleRef (lazyModuleRefKeyOf testComponentInfo),
             Ev.microtask,
             Ev.createComponent (Inj.adapter (Inj.raw 0)) (Inj.adapter (Inj.raw 0)),
             Ev.evalAsync]
              = evs ++ [Ev.microtask, Ev.createComponent p m, Ev.evalAsync])
      ∧ (isThenable (finalInjectors none mi).1 = Except.ok false
          → isThenable (finalInjectors none mi).2 = Except.ok false
          → [Ev.validateKey (lazyModuleRefKeyOf testComponentInfo),
             Ev.getLazyModuleRef (lazyModuleRefKeyOf testComponentInfo),
             Ev.microtask,
             Ev.createComponent (Inj.adapter (Inj.raw 0)) (Inj.adapter (Inj.raw 0)),
             Ev.evalAsync]
              = evs ++ [Ev.createComponent p m]) :=
  downgradeComponent_sync_async (scenarioEnv (BootstrapStub.async (Inj.raw 0)))
    testComponentInfo none
    [Ev.validateKey (lazyModuleRefKeyOf testComponentInfo),
     Ev.getLazyModuleRef (lazyModuleRefKeyOf testComponentInfo),
     Ev.microtask,
     Ev.createComponent (Inj.adapter (Inj.raw 0)) (Inj.adapter (Inj.raw 0)),
     Ev.evalAsync]
    rfl

/-- C3 counterexample: in the claimed scenario itself — first instantiation
right after registration, no ancestor injector — creation does not complete
within the same synchronous call stack.  A bootstrap stub returning an
already-resolved real promise still leaves the record injector unset at the
factory's return, so the link defers creation past a microtask boundary; and
a stub whose thenable invokes its continuation synchronously makes the
factory throw on the uninitialized record binding, so no component is
created at all. -/
theorem downgradeComponent_sync_bootstrap_counterexample :
    (downgradeComponentLink (scenarioEnv (BootstrapStub.async (Inj.raw 0)))
          testComponentInfo none
        = Except.ok
            [Ev.validateKey (lazyModuleRefKeyOf testComponentInfo),
             Ev.getLazyModuleRef (lazyModuleRefKeyOf testComponentInfo),
             Ev.microtask,
             Ev.createComponent (Inj.adapter (Inj.raw 0)) (Inj.adapter (Inj.raw 0)),
             Ev.evalAsync]
      ∧ Ev.microtask
          ∈ [Ev.validateKey (lazyModuleRefKeyOf testComponentInfo),
             Ev.getLazyModuleRef (lazyModuleRefKeyOf testComponentInfo),
             Ev.microtask,
             Ev.createComponent (Inj.adapter (Inj.raw 0)) (Inj.adapter (Inj.raw 0)),
             Ev.evalAsync])
    ∧ (∃ e, lazyModuleRefFactorySyncThenable (Inj.raw 0) = Except.error e) :=
  ⟨⟨rfl, by simp⟩, ⟨_, rfl⟩⟩

/-- C3 amended: once the lazy module's bootstrap promise has settled (so the
lazy-module-reference record already carries the resolved injector), a
downgraded component instantiated with no ancestor injector receives as
module injector exactly the injector the bootstrap stored, and the trace
crosses no microtask boundary: creation completes within the same synchronous
call stack. -/
theorem downgradeComponent_settled_bootstrap (r : Inj) :
    ∃ tr bootInjector,
      (bootstrapComplete (lazyModuleRefFactory (BootstrapStub.async r))).injector
          = some bootInjector
      ∧ downgradeComponentLink (settledScenarioEnv r) testComponentInfo none
          = Except.ok tr
      ∧ Ev.createComponent bootInjector bootInjector ∈ tr
      ∧ Ev.microtask ∉ tr := by
  refine ⟨[Ev.validateKey (lazyModuleRefKeyOf testComponentInfo),
           Ev.getLazyModuleRef (lazyModuleRefKeyOf testComponentInfo),
           Ev.createComponent (Inj.adapter r) (Inj.adapter r)],
          Inj.adapter r, rfl, rfl, by simp, by simp⟩
